import Mathlib

/-!
Verification development for a TypeScript chess engine consisting of a rules
engine (coordinate conversion, board construction, pseudo-legal move
generation, attack detection, legal-move filtering, move application, terminal
classification) and a search engine (static evaluation, alpha-beta minimax,
top-level move selection).

The definitions below are a shallow embedding of the source:
* JS numbers used as board indices are embedded as `Int` (directions can be
  negative); scores are embedded as exact rationals `ℚ` wrapped in a `Score`
  type with explicit `negInf`/`posInf` for the JS `Infinity` sentinels (no
  rounding occurs in the source: all table values are small multiples of 1/10,
  exactly representable in binary floating point up to the scale used).
* a square identifier is a string, as in the source (`'e4'`); the character
  arithmetic of `charCodeAt`/`fromCharCode`/`parseInt` is embedded over the
  string's characters.
* `null`/`undefined` object fields become `Option`; out-of-range array reads
  (JS `undefined`) become `none`.
* `Math.random()` occurrences are embedded as explicit parameters (a rational
  draw for the evaluation jitter, a shuffling function for move-order
  randomisation), matching the spec's requirement that the randomness source
  be injectable/toggleable.
-/

inductive PieceColor where
  | white
  | black
deriving DecidableEq, Repr

inductive PieceType where
  | pawn
  | rook
  | knight
  | bishop
  | queen
  | king
deriving DecidableEq, Repr

structure ChessPiece where
  type : PieceType
  color : PieceColor
deriving DecidableEq, Repr

/-- A square identifier such as `"e4"`, exactly the source's string type. -/
abbrev Square := String

/-- A (row, col) index pair; row 0 is rank 8, row 7 is rank 1. -/
structure Position where
  row : Int
  col : Int
deriving DecidableEq, Repr

inductive CastleSide where
  | kingside
  | queenside
deriving DecidableEq, Repr

/-- The source's `Move` record.  `from`/`to` are renamed `fromSq`/`toSq`
(`from` is a reserved word in Lean); optional fields become `Option`/`Bool`
with `none`/`false` standing for both JS `undefined` and `null`. -/
structure Move where
  fromSq : Square
  toSq : Square
  piece : ChessPiece
  captured : Option ChessPiece := none
  promotion : Option PieceType := none
  castling : Option CastleSide := none
  enPassant : Bool := false
deriving DecidableEq, Repr

structure CastlingRights where
  whiteKingside : Bool
  whiteQueenside : Bool
  blackKingside : Bool
  blackQueenside : Bool
deriving DecidableEq, Repr

/-- The board: 8 rows of 8 optional pieces, row-major from rank 8 down. -/
abbrev Board := List (List (Option ChessPiece))

structure GameState where
  board : Board
  currentPlayer : PieceColor
  moveHistory : List Move
  castlingRights : CastlingRights
  enPassantTarget : Option Square
  halfMoveClock : Int
  fullMoveNumber : Int
  isCheck : Bool
  isCheckmate : Bool
  isStalemate : Bool
  isGameOver : Bool
deriving DecidableEq, Repr

/-- `square.charCodeAt(i)` over the embedded string; out-of-range reads yield
the NUL character's code, standing in for JS `NaN` (both make every
subsequent bounds check fail for the squares the program manipulates). -/
def charCodeAt (s : String) (i : Nat) : Int :=
  ((s.data.getD i (Char.ofNat 0)).toNat : Int)

/-- Source `squareToPosition`: `col = charCodeAt(0) - 'a'.charCodeAt(0)`,
`row = 8 - parseInt(square.charAt(1), 10)` (for the digit characters the
program uses, `parseInt` of the one-character slice is its digit value,
i.e. its character code minus 48). -/
def squareToPosition (square : Square) : Position :=
  { row := 8 - (charCodeAt square 1 - 48), col := charCodeAt square 0 - 97 }

/-- Source `positionToSquare`: file letter from `'a' + col`, rank digit from
`8 - row` (the JS template literal stringifies the number). -/
def positionToSquare (position : Position) : Square :=
  String.mk [Char.ofNat (97 + position.col.toNat)] ++ toString (8 - position.row)

/-- `board[r][c]` as a total read: `none` for an empty square and for any
out-of-range index (JS `undefined`). -/
def boardGet (board : Board) (r c : Int) : Option ChessPiece :=
  if 0 ≤ r ∧ 0 ≤ c then ((board.getD r.toNat []).getD c.toNat none) else none

/-- `board[r][c] = v` as a functional update; writes outside the 8×8 grid
are dropped (unreachable in the source's call sites). -/
def boardSet (board : Board) (r c : Int) (v : Option ChessPiece) : Board :=
  if 0 ≤ r ∧ 0 ≤ c then
    board.set r.toNat ((board.getD r.toNat []).set c.toNat v)
  else board

/-- The repeated source idiom `color === 'white' ? 'black' : 'white'`. -/
def opponentColor (c : PieceColor) : PieceColor :=
  if c = PieceColor.white then PieceColor.black else PieceColor.white

/-- The back-rank piece order of `createInitialBoard`. -/
def backRank : List PieceType :=
  [PieceType.rook, PieceType.knight, PieceType.bishop, PieceType.queen,
   PieceType.king, PieceType.bishop, PieceType.knight, PieceType.rook]

/-- Source `createInitialBoard`: its placement loop puts the black back rank
on row 0 (`f8` squares), black pawns on row 1, white pawns on row 6 and the
white back rank on row 7, leaving rows 2–5 empty. -/
def createInitialBoard : Board :=
  [backRank.map (fun t => some { type := t, color := PieceColor.black }),
   List.replicate 8 (some { type := PieceType.pawn, color := PieceColor.black }),
   List.replicate 8 none,
   List.replicate 8 none,
   List.replicate 8 none,
   List.replicate 8 none,
   List.replicate 8 (some { type := PieceType.pawn, color := PieceColor.white }),
   backRank.map (fun t => some { type := t, color := PieceColor.white })]

/-- Source `createInitialGameState`. -/
def createInitialGameState : GameState :=
  { board := createInitialBoard,
    currentPlayer := PieceColor.white,
    moveHistory := [],
    castlingRights :=
      { whiteKingside := true, whiteQueenside := true,
        blackKingside := true, blackQueenside := true },
    enPassantTarget := none,
    halfMoveClock := 0,
    fullMoveNumber := 1,
    isCheck := false,
    isCheckmate := false,
    isStalemate := false,
    isGameOver := false }

/-- Source `getPawnMoves`.  The source reads the moving piece back off the
board (`board[row][col]!`, asserted non-null); the embedding matches on that
read and returns no moves for an empty from-square (unreachable from the
source's call sites, which always pass an occupied square). -/
def getPawnMoves (board : Board) (fromSq : Square) (color : PieceColor)
    (enPassantTarget : Option Square) : List Move :=
  let pos := squareToPosition fromSq
  match boardGet board pos.row pos.col with
  | none => []
  | some piece =>
    let row := pos.row
    let col := pos.col
    let direction : Int := if color = PieceColor.white then -1 else 1
    let startRow : Int := if color = PieceColor.white then 6 else 1
    let oppColor := opponentColor color
    let forward : List Move :=
      if 0 ≤ row + direction ∧ row + direction < 8 ∧
          boardGet board (row + direction) col = none then
        ({ fromSq := fromSq, toSq := positionToSquare { row := row + direction, col := col },
           piece := piece,
           promotion := if row + direction = 0 ∨ row + direction = 7
                        then some PieceType.queen else none } :
          Move) ::
        (if row = startRow ∧ boardGet board (row + 2 * direction) col = none then
          [{ fromSq := fromSq,
             toSq := positionToSquare { row := row + 2 * direction, col := col },
             piece := piece }]
        else [])
      else []
    let caps : List Move :=
      ([-1, 1] : List Int).flatMap fun dCol =>
        if 0 ≤ col + dCol ∧ col + dCol < 8 then
          let targetRow := row + direction
          let targetCol := col + dCol
          let targetPiece := boardGet board targetRow targetCol
          let normal : List Move :=
            match targetPiece with
            | some tp =>
              if tp.color = oppColor then
                [{ fromSq := fromSq,
                   toSq := positionToSquare { row := targetRow, col := targetCol },
                   piece := piece, captured := some tp,
                   promotion := if targetRow = 0 ∨ targetRow = 7
                                then some PieceType.queen else none }]
              else []
            | none => []
          let ep : List Move :=
            match enPassantTarget with
            | some epSq =>
              let enPassantPos := squareToPosition epSq
              if enPassantPos.row = targetRow ∧ enPassantPos.col = targetCol then
                [{ fromSq := fromSq,
                   toSq := positionToSquare { row := targetRow, col := targetCol },
                   piece := piece, captured := boardGet board row targetCol,
                   enPassant := true }]
              else []
            | none => []
          normal ++ ep
        else []
    forward ++ caps

/-- One ray of `getSlidingMoves`: the `for (let i = 1; i < 8; i++)` loop of
the source, with `fuel` counting the remaining iterations (started at 7) and
`i` the loop index; `break` becomes returning the accumulated list. -/
def slideRay (board : Board) (fromSq : Square) (piece : ChessPiece)
    (color : PieceColor) (row col dr dc : Int) : Nat → Int → List Move
  | 0, _ => []
  | fuel + 1, i =>
    let newRow := row + i * dr
    let newCol := col + i * dc
    if newRow < 0 ∨ 8 ≤ newRow ∨ newCol < 0 ∨ 8 ≤ newCol then []
    else
      match boardGet board newRow newCol with
      | some targetPiece =>
        if targetPiece.color ≠ color then
          [{ fromSq := fromSq,
             toSq := positionToSquare { row := newRow, col := newCol },
             piece := piece, captured := some targetPiece }]
        else []
      | none =>
        { fromSq := fromSq,
          toSq := positionToSquare { row := newRow, col := newCol },
          piece := piece } ::
        slideRay board fromSq piece color row col dr dc fuel (i + 1)

/-- Source `getSlidingMoves` (rook/bishop/queen rays). -/
def getSlidingMoves (board : Board) (fromSq : Square) (color : PieceColor)
    (directions : List (Int × Int)) : List Move :=
  let pos := squareToPosition fromSq
  match boardGet board pos.row pos.col with
  | none => []
  | some piece =>
    directions.flatMap fun d =>
      slideRay board fromSq piece color pos.row pos.col d.1 d.2 7 1

/-- Source `getKnightMoves`, with the source's delta order. -/
def getKnightMoves (board : Board) (fromSq : Square) (color : PieceColor) :
    List Move :=
  let pos := squareToPosition fromSq
  match boardGet board pos.row pos.col with
  | none => []
  | some piece =>
    ([(2, 1), (2, -1), (-2, 1), (-2, -1), (1, 2), (1, -2), (-1, 2), (-1, -2)] :
        List (Int × Int)).flatMap fun d =>
      let newRow := pos.row + d.1
      let newCol := pos.col + d.2
      if 0 ≤ newRow ∧ newRow < 8 ∧ 0 ≤ newCol ∧ newCol < 8 then
        match boardGet board newRow newCol with
        | some targetPiece =>
          if targetPiece.color ≠ color then
            [{ fromSq := fromSq,
               toSq := positionToSquare { row := newRow, col := newCol },
               piece := piece, captured := some targetPiece }]
          else []
        | none =>
          [{ fromSq := fromSq,
             toSq := positionToSquare { row := newRow, col := newCol },
             piece := piece }]
      else []

/-- The non-castling part of `getKingMoves`: the nested `dr`/`dc` loops over
the 8 neighbours, in the source's iteration order. -/
def getKingMovesBasic (board : Board) (fromSq : Square) (color : PieceColor) :
    List Move :=
  let pos := squareToPosition fromSq
  match boardGet board pos.row pos.col with
  | none => []
  | some piece =>
    ([-1, 0, 1] : List Int).flatMap fun dr =>
      ([-1, 0, 1] : List Int).flatMap fun dc =>
        if dr = 0 ∧ dc = 0 then []
        else
          let newRow := pos.row + dr
          let newCol := pos.col + dc
          if 0 ≤ newRow ∧ newRow < 8 ∧ 0 ≤ newCol ∧ newCol < 8 then
            match boardGet board newRow newCol with
            | some targetPiece =>
              if targetPiece.color ≠ color then
                [{ fromSq := fromSq,
                   toSq := positionToSquare { row := newRow, col := newCol },
                   piece := piece, captured := some targetPiece }]
              else []
            | none =>
              [{ fromSq := fromSq,
                 toSq := positionToSquare { row := newRow, col := newCol },
                 piece := piece }]
          else []

/-- `getPieceMoves` specialised to `ignoreKingCheck = true` (the only mode
`isSquareAttacked` uses): identical per-piece dispatch, with the king case
reduced to its non-castling neighbour moves because the source's castling
block is guarded by `!ignoreKingCheck`.  The direction lists are the
source's literal direction arrays. -/
def getPieceMovesNC (board : Board) (square : Square) (piece : ChessPiece)
    (enPassantTarget : Option Square) : List Move :=
  match piece.type with
  | PieceType.pawn => getPawnMoves board square piece.color enPassantTarget
  | PieceType.rook =>
    getSlidingMoves board square piece.color [(0, 1), (0, -1), (1, 0), (-1, 0)]
  | PieceType.knight => getKnightMoves board square piece.color
  | PieceType.bishop =>
    getSlidingMoves board square piece.color [(1, 1), (1, -1), (-1, 1), (-1, -1)]
  | PieceType.queen =>
    getSlidingMoves board square piece.color
      [(0, 1), (0, -1), (1, 0), (-1, 0), (1, 1), (1, -1), (-1, 1), (-1, -1)]
  | PieceType.king => getKingMovesBasic board square piece.color

/-- Source `isSquareAttacked`: scan all 64 squares; a piece of `byColor`
attacks `square` iff one of its pseudo-legal moves (generated with dead
castling rights, no en-passant target and `ignoreKingCheck = true`) lands on
`square`. -/
def isSquareAttacked (board : Board) (square : Square) (byColor : PieceColor) :
    Bool :=
  (List.range 8).any fun r =>
    (List.range 8).any fun c =>
      match boardGet board (r : Int) (c : Int) with
      | some piece =>
        piece.color == byColor &&
          (getPieceMovesNC board (positionToSquare { row := (r : Int), col := (c : Int) })
              piece none).any fun move => move.toSq == square
      | none => false

/-- Source `getKingMoves`: the 8 neighbour moves plus, when `ignoreKingCheck`
is off and the king's square is not attacked, the castling moves gated on
rights, empty in-between squares and unattacked transit squares. -/
def getKingMoves (board : Board) (fromSq : Square) (color : PieceColor)
    (castlingRights : CastlingRights) (ignoreKingCheck : Bool) : List Move :=
  let pos := squareToPosition fromSq
  match boardGet board pos.row pos.col with
  | none => []
  | some piece =>
    let oppColor := opponentColor color
    getKingMovesBasic board fromSq color ++
    (if !ignoreKingCheck && !isSquareAttacked board fromSq oppColor then
      if color = PieceColor.white then
        (if castlingRights.whiteKingside && (boardGet board 7 5).isNone &&
            (boardGet board 7 6).isNone &&
            !isSquareAttacked board "f1" oppColor &&
            !isSquareAttacked board "g1" oppColor then
          [{ fromSq := fromSq, toSq := "g1", piece := piece,
             castling := some CastleSide.kingside }]
        else []) ++
        (if castlingRights.whiteQueenside && (boardGet board 7 1).isNone &&
            (boardGet board 7 2).isNone && (boardGet board 7 3).isNone &&
            !isSquareAttacked board "d1" oppColor &&
            !isSquareAttacked board "c1" oppColor then
          [{ fromSq := fromSq, toSq := "c1", piece := piece,
             castling := some CastleSide.queenside }]
        else [])
      else
        (if castlingRights.blackKingside && (boardGet board 0 5).isNone &&
            (boardGet board 0 6).isNone &&
            !isSquareAttacked board "f8" oppColor &&
            !isSquareAttacked board "g8" oppColor then
          [{ fromSq := fromSq, toSq := "g8", piece := piece,
             castling := some CastleSide.kingside }]
        else []) ++
        (if castlingRights.blackQueenside && (boardGet board 0 1).isNone &&
            (boardGet board 0 2).isNone && (boardGet board 0 3).isNone &&
            !isSquareAttacked board "d8" oppColor &&
            !isSquareAttacked board "c8" oppColor then
          [{ fromSq := fromSq, toSq := "c8", piece := piece,
             castling := some CastleSide.queenside }]
        else [])
    else [])

/-- Source `getPieceMoves`: per-type dispatch with the source's literal
direction arrays. -/
def getPieceMoves (board : Board) (square : Square) (piece : ChessPiece)
    (castlingRights : CastlingRights) (enPassantTarget : Option Square)
    (ignoreKingCheck : Bool) : List Move :=
  match piece.type with
  | PieceType.pawn => getPawnMoves board square piece.color enPassantTarget
  | PieceType.rook =>
    getSlidingMoves board square piece.color [(0, 1), (0, -1), (1, 0), (-1, 0)]
  | PieceType.knight => getKnightMoves board square piece.color
  | PieceType.bishop =>
    getSlidingMoves board square piece.color [(1, 1), (1, -1), (-1, 1), (-1, -1)]
  | PieceType.queen =>
    getSlidingMoves board square piece.color
      [(0, 1), (0, -1), (1, 0), (-1, 0), (1, 1), (1, -1), (-1, 1), (-1, -1)]
  | PieceType.king => getKingMoves board square piece.color castlingRights ignoreKingCheck

/-- Source `findKing`: row-major scan for the first king of `color`. -/
def findKing (board : Board) (color : PieceColor) : Option Square :=
  ((List.range 8).flatMap fun r => (List.range 8).map fun c => (r, c)).findSome?
    fun rc =>
      match boardGet board (rc.1 : Int) (rc.2 : Int) with
      | some piece =>
        if piece.type = PieceType.king ∧ piece.color = color then
          some (positionToSquare { row := (rc.1 : Int), col := (rc.2 : Int) })
        else none
      | none => none

/-- Source `applyMove`: board relocation (with promotion), en-passant pawn
removal, castling rook relocation, castling-rights revocation, en-passant
target computation, clock/counter updates, side flip, history append; the
four status booleans are carried over by the spread of the input state. -/
def applyMove (gameState : GameState) (move : Move) : GameState :=
  let fromPos := squareToPosition move.fromSq
  let toPos := squareToPosition move.toSq
  let b1 := boardSet gameState.board fromPos.row fromPos.col none
  let b2 := boardSet b1 toPos.row toPos.col
    (some (match move.promotion with
           | some p => { move.piece with type := p }
           | none => move.piece))
  let b3 := if move.enPassant then boardSet b2 fromPos.row toPos.col none else b2
  let newBoard :=
    match move.castling with
    | some CastleSide.kingside =>
      let rook := boardGet b3 toPos.row 7
      boardSet (boardSet b3 toPos.row 7 none) toPos.row 5 rook
    | some CastleSide.queenside =>
      let rook := boardGet b3 toPos.row 0
      boardSet (boardSet b3 toPos.row 0 none) toPos.row 3 rook
    | none => b3
  let cr0 := gameState.castlingRights
  let cr1 :=
    if move.piece.type = PieceType.king then
      if move.piece.color = PieceColor.white then
        { cr0 with whiteKingside := false, whiteQueenside := false }
      else
        { cr0 with blackKingside := false, blackQueenside := false }
    else cr0
  let cr2 := if move.fromSq = "a1" ∨ move.toSq = "a1" then
               { cr1 with whiteQueenside := false } else cr1
  let cr3 := if move.fromSq = "h1" ∨ move.toSq = "h1" then
               { cr2 with whiteKingside := false } else cr2
  let cr4 := if move.fromSq = "a8" ∨ move.toSq = "a8" then
               { cr3 with blackQueenside := false } else cr3
  let newCastlingRights := if move.fromSq = "h8" ∨ move.toSq = "h8" then
               { cr4 with blackKingside := false } else cr4
  let newEnPassantTarget : Option Square :=
    if move.piece.type = PieceType.pawn ∧ (fromPos.row - toPos.row).natAbs = 2 then
      some (positionToSquare { row := (fromPos.row + toPos.row) / 2, col := fromPos.col })
    else none
  let halfMoveClock : Int :=
    if move.piece.type = PieceType.pawn ∨ move.captured.isSome then 0
    else gameState.halfMoveClock + 1
  let fullMoveNumber : Int :=
    if gameState.currentPlayer = PieceColor.black then gameState.fullMoveNumber + 1
    else gameState.fullMoveNumber
  { gameState with
    board := newBoard,
    currentPlayer := if gameState.currentPlayer = PieceColor.white
                     then PieceColor.black else PieceColor.white,
    moveHistory := gameState.moveHistory ++ [move],
    castlingRights := newCastlingRights,
    enPassantTarget := newEnPassantTarget,
    halfMoveClock := halfMoveClock,
    fullMoveNumber := fullMoveNumber }

/-- Source `getAllValidMoves`: scan every square of `color`, generate that
piece's pseudo-legal moves, keep a move iff after speculative application the
mover's king is found and is not attacked by the opponent. -/
def getAllValidMoves (state : GameState) (color : PieceColor) : List Move :=
  let oppColor := opponentColor color
  (List.range 8).flatMap fun r =>
    (List.range 8).flatMap fun c =>
      match boardGet state.board (r : Int) (c : Int) with
      | some piece =>
        if piece.color = color then
          (getPieceMoves state.board
              (positionToSquare { row := (r : Int), col := (c : Int) }) piece
              state.castlingRights state.enPassantTarget false).filter
            fun move =>
              let tempState := applyMove state move
              match findKing tempState.board color with
              | some kingSquare => !isSquareAttacked tempState.board kingSquare oppColor
              | none => false
        else []
      | none => []

/-- Source `checkGameStatus` (hosting hook): missing-king fallback flags
checkmate/game-over and otherwise recomputes the four status booleans from
the attack test and legal-move count. -/
def checkGameStatus (state : GameState) : GameState :=
  let nextPlayer := state.currentPlayer
  let oppColor := if nextPlayer = PieceColor.white then PieceColor.black
                  else PieceColor.white
  match findKing state.board nextPlayer with
  | none => { state with isGameOver := true, isCheckmate := true }
  | some kingSquare =>
    let inCheck := isSquareAttacked state.board kingSquare oppColor
    let hasValidMoves : Bool := decide (0 < (getAllValidMoves state nextPlayer).length)
    let isCheckmate := inCheck && !hasValidMoves
    let isStalemate := !inCheck && !hasValidMoves
    let isGameOver := isCheckmate || isStalemate
    { state with isCheck := inCheck, isCheckmate := isCheckmate,
                 isStalemate := isStalemate, isGameOver := isGameOver }

/-- A JS score value: a finite double (embedded exactly as a rational, since
the source only ever adds values with short binary fractions) or one of the
`Infinity` sentinels used by the search. -/
inductive Score where
  | negInf
  | fin (q : ℚ)
  | posInf
deriving DecidableEq, Repr

/-- JS `<` on the scores the search compares (no NaN arises: the sentinels
are only compared and folded with max/min, never used in arithmetic). -/
def Score.ltb : Score → Score → Bool
  | Score.negInf, Score.negInf => false
  | Score.negInf, _ => true
  | Score.fin _, Score.negInf => false
  | Score.fin a, Score.fin b => decide (a < b)
  | Score.fin _, Score.posInf => true
  | Score.posInf, _ => false

/-- JS `<=` on scores (equivalent to the negation of the reversed `<` in the
NaN-free fragment the search uses). -/
def Score.leb (a b : Score) : Bool := !Score.ltb b a

/-- JS `Math.max` on two scores. -/
def Score.maxS (a b : Score) : Score := if Score.ltb a b then b else a

/-- JS `Math.min` on two scores. -/
def Score.minS (a b : Score) : Score := if Score.ltb b a then b else a

/-- Source `PIECE_VALUES`. -/
def PIECE_VALUES : PieceType → ℚ
  | PieceType.pawn => 100
  | PieceType.knight => 320
  | PieceType.bishop => 330
  | PieceType.rook => 500
  | PieceType.queen => 900
  | PieceType.king => 20000

/-- Source `pawnTable`. -/
def pawnTable : List (List ℚ) :=
  [[0, 0, 0, 0, 0, 0, 0, 0],
   [50, 50, 50, 50, 50, 50, 50, 50],
   [10, 10, 20, 30, 30, 20, 10, 10],
   [5, 5, 10, 25, 25, 10, 5, 5],
   [0, 0, 0, 20, 20, 0, 0, 0],
   [5, -5, -10, 0, 0, -10, -5, 5],
   [5, 10, 10, -20, -20, 10, 10, 5],
   [0, 0, 0, 0, 0, 0, 0, 0]]

/-- Source `knightTable`. -/
def knightTable : List (List ℚ) :=
  [[-50, -40, -30, -30, -30, -30, -40, -50],
   [-40, -20, 0, 0, 0, 0, -20, -40],
   [-30, 0, 10, 15, 15, 10, 0, -30],
   [-30, 5, 15, 20, 20, 15, 5, -30],
   [-30, 0, 15, 20, 20, 15, 0, -30],
   [-30, 5, 10, 15, 15, 10, 5, -30],
   [-40, -20, 0, 5, 5, 0, -20, -40],
   [-50, -40, -30, -30, -30, -30, -40, -50]]

/-- Source `kingTable`. -/
def kingTable : List (List ℚ) :=
  [[-30, -40, -40, -50, -50, -40, -40, -30],
   [-30, -40, -40, -50, -50, -40, -40, -30],
   [-30, -40, -40, -50, -50, -40, -40, -30],
   [-30, -40, -40, -50, -50, -40, -40, -30],
   [-20, -30, -30, -40, -40, -30, -30, -20],
   [-10, -20, -20, -20, -20, -20, -20, -10],
   [20, 20, 0, 0, 0, 0, 20, 20],
   [20, 30, 10, 0, 0, 10, 30, 20]]

/-- Source `pieceSquareTables`: bishop is the knight table shifted by 5 with
each row reversed; rook and queen are the pawn table scaled by 1/10 and 1/5
(exact divisions in the embedding, exactly representable in the source's
doubles at this scale). -/
def pieceSquareTables : PieceType → List (List ℚ)
  | PieceType.pawn => pawnTable
  | PieceType.knight => knightTable
  | PieceType.bishop => knightTable.map fun row => (row.map fun v => v + 5).reverse
  | PieceType.rook => pawnTable.map fun row => row.map fun v => v / 10
  | PieceType.queen => pawnTable.map fun row => row.map fun v => v / 5
  | PieceType.king => kingTable

/-- `table[r][c]` for the fixed 8×8 tables (always in range at call sites). -/
def tableGet (t : List (List ℚ)) (r c : Nat) : ℚ := (t.getD r []).getD c 0

/-- Source `evaluatePosition`: material plus piece-square bonus, signed for
white, plus the jitter `Math.random() * 10 - 5` with the random draw `rnd`
made an explicit parameter. -/
def evaluatePosition (rnd : ℚ) (gameState : GameState) : ℚ :=
  ((List.range 8).foldl (fun acc r =>
    (List.range 8).foldl (fun acc c =>
      match boardGet gameState.board (Int.ofNat r) (Int.ofNat c) with
      | some piece =>
        let value := PIECE_VALUES piece.type
        let table := pieceSquareTables piece.type
        let positionalValue :=
          if piece.color = PieceColor.white then tableGet table r c
          else tableGet table (7 - r) c
        acc + (value + positionalValue) *
          (if piece.color = PieceColor.white then 1 else -1)
      | none => acc) acc) 0) + (rnd * 10 - 5)

/-- The terminal branch of `minimax` (`depth === 0 || gameState.isGameOver`):
checkmate is ∓∞ by the maximizing flag, stalemate 0, otherwise the static
evaluation. -/
def minimaxLeaf (rnd : ℚ) (gameState : GameState) (isMaximizing : Bool) : Score :=
  if gameState.isCheckmate then
    (if isMaximizing then Score.negInf else Score.posInf)
  else if gameState.isStalemate then Score.fin 0
  else Score.fin (evaluatePosition rnd gameState)

/-- The maximizing `for` loop of `minimax` over the remaining moves, carrying
`maxEval` and `alpha`; `recur` is the depth-decremented recursive call and
the `break` on `beta <= alpha` returns the accumulated `maxEval`. -/
def abMax (recur : GameState → Score → Score → Score) (gameState : GameState)
    (beta : Score) : List Move → Score → Score → Score
  | [], maxEval, _ => maxEval
  | move :: rest, maxEval, alpha =>
    let childState := applyMove gameState move
    let evaluation := recur childState alpha beta
    let maxEval1 := Score.maxS maxEval evaluation
    let alpha1 := Score.maxS alpha evaluation
    if Score.leb beta alpha1 then maxEval1
    else abMax recur gameState beta rest maxEval1 alpha1

/-- The minimizing `for` loop of `minimax`, carrying `minEval` and `beta`. -/
def abMin (recur : GameState → Score → Score → Score) (gameState : GameState)
    (alpha : Score) : List Move → Score → Score → Score
  | [], minEval, _ => minEval
  | move :: rest, minEval, beta =>
    let childState := applyMove gameState move
    let evaluation := recur childState alpha beta
    let minEval1 := Score.minS minEval evaluation
    let beta1 := Score.minS beta evaluation
    if Score.leb beta1 alpha then minEval1
    else abMin recur gameState alpha rest minEval1 beta1

/-- Source `minimax` with the depth (a non-negative integer at every source
call site) embedded as `Nat`; the `rnd` parameter is the injectable random
draw used by every leaf evaluation. -/
def minimax (rnd : ℚ) : Nat → GameState → Bool → Score → Score → Score
  | 0, gameState, isMaximizing, _, _ => minimaxLeaf rnd gameState isMaximizing
  | depth + 1, gameState, isMaximizing, alpha, beta =>
    if gameState.isGameOver then minimaxLeaf rnd gameState isMaximizing
    else
      let moves := getAllValidMoves gameState gameState.currentPlayer
      if isMaximizing then
        abMax (fun gs a b => minimax rnd depth gs false a b) gameState beta
          moves Score.negInf alpha
      else
        abMin (fun gs a b => minimax rnd depth gs true a b) gameState alpha
          moves Score.posInf beta

/-- The body of `getBestMove`'s candidate loop: score the candidate one ply
shallower and keep it only on a strict improvement for the side choosing. -/
def bestMoveStep (rnd : ℚ) (gameState : GameState) (depth : Nat)
    (acc : Option Move × Score) (move : Move) : Option Move × Score :=
  let childState := applyMove gameState move
  let isMaximizing := gameState.currentPlayer = PieceColor.black
  let moveValue := minimax rnd (depth - 1) childState isMaximizing
    Score.negInf Score.posInf
  if gameState.currentPlayer = PieceColor.white then
    if Score.ltb acc.2 moveValue then (some move, moveValue) else acc
  else
    if Score.ltb moveValue acc.2 then (some move, moveValue) else acc

/-- Source `getBestMove`.  The in-place `moves.sort(() => Math.random() - 0.5)`
is embedded as the injectable `shuffle` parameter (an arbitrary reordering);
the fold carries the `bestMove`/`bestValue` pair of the source's loop, and
`bestMove || moves[0]` becomes the match on the fold's first component (the
source's `moves[0]` reads the shuffled array, since `sort` mutates in place). -/
def getBestMove (rnd : ℚ) (shuffle : List Move → List Move)
    (gameState : GameState) (depth : Nat) : Option Move :=
  let moves := getAllValidMoves gameState gameState.currentPlayer
  if moves.length = 0 then none
  else
    let shuffledMoves := shuffle moves
    let result := shuffledMoves.foldl (bestMoveStep rnd gameState depth)
      ((none : Option Move),
       if gameState.currentPlayer = PieceColor.white then Score.negInf
       else Score.posInf)
    match result.1 with
    | some m => some m
    | none => shuffledMoves.head?

/-- The 64 valid square identifiers, file letter `a`–`h`, rank digit `1`–`8`. -/
def allSquares : List Square :=
  "abcdefgh".data.flatMap fun f => "12345678".data.map fun r => String.mk [f, r]

/-- The number of rows a move travels, read off its square identifiers. -/
def rowDist (m : Move) : Nat :=
  ((squareToPosition m.fromSq).row - (squareToPosition m.toSq).row).natAbs

/-- A board holding only the two kings: white on a1 (row 7), black on h8
(row 0). -/
def tinyBoard : Board :=
  [[none, none, none, none, none, none, none,
    some { type := PieceType.king, color := PieceColor.black }],
   List.replicate 8 none, List.replicate 8 none, List.replicate 8 none,
   List.replicate 8 none, List.replicate 8 none, List.replicate 8 none,
   [some { type := PieceType.king, color := PieceColor.white },
    none, none, none, none, none, none, none]]

/-- A kings-only position with white to move and no castling rights. -/
def tinyState : GameState :=
  { board := tinyBoard,
    currentPlayer := PieceColor.white,
    moveHistory := [],
    castlingRights :=
      { whiteKingside := false, whiteQueenside := false,
        blackKingside := false, blackQueenside := false },
    enPassantTarget := none,
    halfMoveClock := 0,
    fullMoveNumber := 1,
    isCheck := false,
    isCheckmate := false,
    isStalemate := false,
    isGameOver := false }

/-- The white king step a1 → a2 as the generator produces it. -/
def tinyKingMove : Move :=
  { fromSq := "a1", toSq := "a2",
    piece := { type := PieceType.king, color := PieceColor.white } }

/-- An initial-position state whose white-kingside right is already lost. -/
def wkLostState : GameState :=
  { createInitialGameState with
    castlingRights :=
      { whiteKingside := false, whiteQueenside := true,
        blackKingside := true, blackQueenside := true } }

/-- A white rook move leaving the a1 corner. -/
def rookFromA1Move : Move :=
  { fromSq := "a1", toSq := "a3",
    piece := { type := PieceType.rook, color := PieceColor.white } }

/-- The double pawn advance e2 → e4. -/
def dblPawnMove : Move :=
  { fromSq := "e2", toSq := "e4",
    piece := { type := PieceType.pawn, color := PieceColor.white } }

/-- The initial position with its checkmate flag raised by hand. -/
def cmFlaggedState : GameState :=
  { createInitialGameState with isCheckmate := true }

/-- An entirely empty board. -/
def emptyBoard : Board := List.replicate 8 (List.replicate 8 none)

/-- A state with no kings on the board and a raised stalemate flag. -/
def noKingState : GameState :=
  { createInitialGameState with board := emptyBoard, isStalemate := true }

/-- A board holding a single black pawn on e7 (row 1, col 4); e6 and d6 are
empty. -/
def pawnOnlyBoard : Board :=
  [List.replicate 8 none,
   [none, none, none, none,
    some { type := PieceType.pawn, color := PieceColor.black },
    none, none, none],
   List.replicate 8 none, List.replicate 8 none, List.replicate 8 none,
   List.replicate 8 none, List.replicate 8 none, List.replicate 8 none]

/-- Faithfulness of the `getPieceMovesNC` shortcut: with
`ignoreKingCheck = true` the full dispatch coincides with it for any rights
record, in particular the dead rights `isSquareAttacked` passes. -/
theorem getPieceMoves_ignoreKingCheck (board : Board) (square : Square)
    (piece : ChessPiece) (castlingRights : CastlingRights)
    (enPassantTarget : Option Square) :
    getPieceMoves board square piece castlingRights enPassantTarget true =
      getPieceMovesNC board square piece enPassantTarget := by
  cases h : piece.type <;> simp only [getPieceMoves, getPieceMovesNC, h]
  cases hb : boardGet board (squareToPosition square).row (squareToPosition square).col <;>
    simp [getKingMoves, getKingMovesBasic, hb]

/-- C8: round-trip of the coordinate conversion on each of the 64 valid
square identifiers. -/
theorem claim_C8 (s : Square) (hs : s ∈ allSquares) :
    positionToSquare (squareToPosition s) = s := by
  fin_cases hs <;> rfl

/-- C8 witness: the round-trip at the concrete square e4. -/
theorem claim_C8_witness : positionToSquare (squareToPosition "e4") = "e4" :=
  claim_C8 "e4" (by decide)

/-- C9: `applyMove` carries the four derived status booleans of the input
state over unchanged (its record spread never recomputes them). -/
theorem claim_C9 (s : GameState) (m : Move) :
    (applyMove s m).isCheck = s.isCheck ∧
    (applyMove s m).isCheckmate = s.isCheckmate ∧
    (applyMove s m).isStalemate = s.isStalemate ∧
    (applyMove s m).isGameOver = s.isGameOver :=
  ⟨rfl, rfl, rfl, rfl⟩

/-- C10: `isSquareAttacked` equates attack with pseudo-legal reachability,
so on a board with a single black pawn on e7 the empty push square e6 is
reported attacked while the empty capture square d6 is reported unattacked. -/
theorem claim_C10 :
    boardGet pawnOnlyBoard (squareToPosition "e6").row (squareToPosition "e6").col = none ∧
    boardGet pawnOnlyBoard (squareToPosition "d6").row (squareToPosition "d6").col = none ∧
    boardGet pawnOnlyBoard 1 4 =
      some { type := PieceType.pawn, color := PieceColor.black } ∧
    isSquareAttacked pawnOnlyBoard "e6" PieceColor.black = true ∧
    isSquareAttacked pawnOnlyBoard "d6" PieceColor.black = false := by decide

/-- C5 (amended): at depth 0, for a state whose checkmate and stalemate flags
are clear, `minimax` returns exactly the static evaluation with the same
random draw, for every window and maximizing flag. -/
theorem claim_C5 (rnd : ℚ) (s : GameState) (isMaximizing : Bool)
    (alpha beta : Score)
    (h1 : s.isCheckmate = false) (h2 : s.isStalemate = false) :
    minimax rnd 0 s isMaximizing alpha beta = Score.fin (evaluatePosition rnd s) := by
  simp [minimax, minimaxLeaf, h1, h2]

/-- C5 witness: the depth-0 evaluation identity at the initial position. -/
theorem claim_C5_witness :
    minimax 0 0 createInitialGameState true Score.negInf Score.posInf =
      Score.fin (evaluatePosition 0 createInitialGameState) :=
  claim_C5 0 createInitialGameState true Score.negInf Score.posInf rfl rfl

/-- C5 counterexample: on a checkmate-flagged state, depth-0 `minimax`
returns the −∞ sentinel, not the static evaluation. -/
theorem claim_C5_cex :
    minimax 0 0 cmFlaggedState true Score.negInf Score.posInf ≠
      Score.fin (evaluatePosition 0 cmFlaggedState) := by decide

/-- C7 (amended): `checkGameStatus` always returns `isGameOver` equal to the
OR of its `isCheckmate` and `isStalemate`; and whenever the side to move
still has a king on the board, the returned `isCheckmate` and `isStalemate`
are mutually exclusive (in the missing-king fallback, `isCheckmate` is set
and the input's `isStalemate` flag is carried over unchanged). -/
theorem claim_C7 (s : GameState) :
    (checkGameStatus s).isGameOver =
      ((checkGameStatus s).isCheckmate || (checkGameStatus s).isStalemate) ∧
    (findKing s.board s.currentPlayer ≠ none →
      ¬((checkGameStatus s).isCheckmate = true ∧
        (checkGameStatus s).isStalemate = true)) := by
  unfold checkGameStatus
  cases h : findKing s.board s.currentPlayer with
  | none =>
    simp only [h]
    exact ⟨by simp, fun hk => absurd rfl hk⟩
  | some ks =>
    simp only [h]
    refine ⟨trivial, fun _ hcc => ?_⟩
    obtain ⟨h1, h2⟩ := hcc
    simp only [Bool.and_eq_true, Bool.not_eq_true'] at h1 h2
    rw [h1.1] at h2
    exact absurd h2.1 (by simp)

/-- C7 witness: the amended claim at the initial position, whose king is
present. -/
theorem claim_C7_witness :
    ¬((checkGameStatus createInitialGameState).isCheckmate = true ∧
      (checkGameStatus createInitialGameState).isStalemate = true) :=
  (claim_C7 createInitialGameState).2 (by decide)

/-- C7 counterexample: on a kingless board with a raised stalemate flag, the
fallback returns `isCheckmate` and `isStalemate` both true, so the claim's
mutual-exclusion part fails as stated for arbitrary input states. -/
theorem claim_C7_cex :
    (checkGameStatus noKingState).isCheckmate = true ∧
    (checkGameStatus noKingState).isStalemate = true := by decide

/-- C2: castling rights are monotone under `applyMove` (a false right stays
false), both of a colour's rights fall when its king moves, and a wing's
right falls whenever a move's from- or to-square is that wing's rook home
corner (which covers the rook leaving its home square). -/
theorem claim_C2 (s : GameState) (m : Move) :
    ((s.castlingRights.whiteKingside = false →
        (applyMove s m).castlingRights.whiteKingside = false) ∧
     (s.castlingRights.whiteQueenside = false →
        (applyMove s m).castlingRights.whiteQueenside = false) ∧
     (s.castlingRights.blackKingside = false →
        (applyMove s m).castlingRights.blackKingside = false) ∧
     (s.castlingRights.blackQueenside = false →
        (applyMove s m).castlingRights.blackQueenside = false)) ∧
    (m.piece.type = PieceType.king →
      (m.piece.color = PieceColor.white →
        (applyMove s m).castlingRights.whiteKingside = false ∧
        (applyMove s m).castlingRights.whiteQueenside = false) ∧
      (m.piece.color = PieceColor.black →
        (applyMove s m).castlingRights.blackKingside = false ∧
        (applyMove s m).castlingRights.blackQueenside = false)) ∧
    ((m.fromSq = "a1" ∨ m.toSq = "a1") →
      (applyMove s m).castlingRights.whiteQueenside = false) ∧
    ((m.fromSq = "h1" ∨ m.toSq = "h1") →
      (applyMove s m).castlingRights.whiteKingside = false) ∧
    ((m.fromSq = "a8" ∨ m.toSq = "a8") →
      (applyMove s m).castlingRights.blackQueenside = false) ∧
    ((m.fromSq = "h8" ∨ m.toSq = "h8") →
      (applyMove s m).castlingRights.blackKingside = false) := by
  simp only [applyMove]
  split_ifs <;> simp_all

/-- C2 witness: moving the a1 rook from a state that has already lost the
white-kingside right leaves both white rights false. -/
theorem claim_C2_witness :
    (applyMove wkLostState rookFromA1Move).castlingRights.whiteQueenside = false ∧
    (applyMove wkLostState rookFromA1Move).castlingRights.whiteKingside = false :=
  ⟨(claim_C2 wkLostState rookFromA1Move).2.2.1 (Or.inl rfl),
   (claim_C2 wkLostState rookFromA1Move).1.1 (by decide)⟩

/-- C3: the successor state's en-passant target is set iff the move is a pawn
move spanning exactly two rows, in which case it is the skipped-over square;
every other move clears it regardless of the prior target. -/
theorem claim_C3 (s : GameState) (m : Move) :
    ((applyMove s m).enPassantTarget ≠ none ↔
      (m.piece.type = PieceType.pawn ∧
       ((squareToPosition m.fromSq).row - (squareToPosition m.toSq).row).natAbs = 2)) ∧
    (m.piece.type = PieceType.pawn →
      ((squareToPosition m.fromSq).row - (squareToPosition m.toSq).row).natAbs = 2 →
      (applyMove s m).enPassantTarget =
        some (positionToSquare
          { row := ((squareToPosition m.fromSq).row + (squareToPosition m.toSq).row) / 2,
            col := (squareToPosition m.fromSq).col })) ∧
    (¬(m.piece.type = PieceType.pawn ∧
        ((squareToPosition m.fromSq).row - (squareToPosition m.toSq).row).natAbs = 2) →
      (applyMove s m).enPassantTarget = none) := by
  simp only [applyMove]
  by_cases h : m.piece.type = PieceType.pawn ∧
      ((squareToPosition m.fromSq).row - (squareToPosition m.toSq).row).natAbs = 2
  · simp [h]
  · simp_all

/-- C3 witness: the double advance e2 → e4 from the initial position sets the
target to the skipped square. -/
theorem claim_C3_witness :
    (applyMove createInitialGameState dblPawnMove).enPassantTarget =
      some (positionToSquare
        { row := ((squareToPosition dblPawnMove.fromSq).row +
                  (squareToPosition dblPawnMove.toSq).row) / 2,
          col := (squareToPosition dblPawnMove.fromSq).col }) :=
  (claim_C3 createInitialGameState dblPawnMove).2.1 rfl (by decide)

/-- C1: every move returned by `getAllValidMoves` survives its own filter:
after applying it, the mover's king is found and is not attacked by the
opponent. -/
theorem claim_C1 (state : GameState) (color : PieceColor) (m : Move)
    (hm : m ∈ getAllValidMoves state color) :
    ∃ ks, findKing (applyMove state m).board color = some ks ∧
      isSquareAttacked (applyMove state m).board ks (opponentColor color) = false := by
  simp only [getAllValidMoves, List.mem_flatMap, List.mem_range] at hm
  obtain ⟨r, hr, c, hc, hm⟩ := hm
  revert hm
  cases hb : boardGet state.board (r : Int) (c : Int) with
  | none => intro hm; exact absurd hm (List.not_mem_nil m)
  | some piece =>
    by_cases hcol : piece.color = color
    · simp only [hcol, if_true]
      intro hm
      have hp := (List.mem_filter.mp hm).2
      simp only at hp
      revert hp
      cases hk : findKing (applyMove state m).board color with
      | none => intro hp; exact absurd hp (by simp)
      | some ks =>
        intro hp
        exact ⟨ks, rfl, by simpa using hp⟩
    · simp only [hcol, if_false]
      intro hm
      exact absurd hm (List.not_mem_nil m)

/-- C1 witness: the king step a1 → a2 is generated as legal in the kings-only
position, and the instantiated safety conclusion for it. -/
theorem claim_C1_witness :
    ∃ ks, findKing (applyMove tinyState tinyKingMove).board PieceColor.white = some ks ∧
      isSquareAttacked (applyMove tinyState tinyKingMove).board ks
        (opponentColor PieceColor.white) = false :=
  claim_C1 tinyState PieceColor.white tinyKingMove (by decide)

/-- C4: from the initial position, white has exactly 20 legal moves: 8 single
pawn advances, 8 double pawn advances and 4 knight moves. -/
theorem claim_C4 :
    (getAllValidMoves createInitialGameState PieceColor.white).length = 20 ∧
    ((getAllValidMoves createInitialGameState PieceColor.white).filter
      (fun m => m.piece.type == PieceType.pawn && rowDist m == 1)).length = 8 ∧
    ((getAllValidMoves createInitialGameState PieceColor.white).filter
      (fun m => m.piece.type == PieceType.pawn && rowDist m == 2)).length = 8 ∧
    ((getAllValidMoves createInitialGameState PieceColor.white).filter
      (fun m => m.piece.type == PieceType.knight)).length = 4 := by decide

/-- The candidate loop's accumulator move is only ever kept or replaced by
the currently scored move. -/
theorem bestMoveStep_fst (rnd : ℚ) (gameState : GameState) (depth : Nat)
    (acc : Option Move × Score) (move : Move) :
    (bestMoveStep rnd gameState depth acc move).1 = acc.1 ∨
    (bestMoveStep rnd gameState depth acc move).1 = some move := by
  unfold bestMoveStep
  by_cases h1 : gameState.currentPlayer = PieceColor.white
  · simp only [h1, if_true]
    split <;> simp
  · simp only [h1, if_false]
    split <;> simp

/-- Folding the candidate loop from any accumulator either keeps the
accumulator's move or ends on some member of the folded list. -/
theorem foldl_best_fst (rnd : ℚ) (gameState : GameState) (depth : Nat) :
    ∀ (l : List Move) (acc : Option Move × Score),
      (l.foldl (bestMoveStep rnd gameState depth) acc).1 = acc.1 ∨
      ∃ m ∈ l, (l.foldl (bestMoveStep rnd gameState depth) acc).1 = some m := by
  intro l
  induction l with
  | nil => intro acc; exact Or.inl rfl
  | cons mv rest ih =>
    intro acc
    rw [List.foldl_cons]
    rcases ih (bestMoveStep rnd gameState depth acc mv) with h | ⟨m, hm, h⟩
    · rcases bestMoveStep_fst rnd gameState depth acc mv with h2 | h2
      · exact Or.inl (h.trans h2)
      · exact Or.inr ⟨mv, by simp, h.trans h2⟩
    · exact Or.inr ⟨m, by simp [hm], h⟩

/-- C6: `getBestMove` returns an absent result exactly when there is no legal
move, and otherwise returns a member of the legal-move list, for every
reordering the shuffle may produce. -/
theorem claim_C6 (rnd : ℚ) (shuffle : List Move → List Move) (s : GameState)
    (depth : Nat) (hshuffle : ∀ l, (shuffle l).Perm l) :
    (getBestMove rnd shuffle s depth = none ↔
      getAllValidMoves s s.currentPlayer = []) ∧
    (getAllValidMoves s s.currentPlayer ≠ [] →
      ∃ m, getBestMove rnd shuffle s depth = some m ∧
        m ∈ getAllValidMoves s s.currentPlayer) := by
  by_cases hnil : getAllValidMoves s s.currentPlayer = []
  · constructor
    · simp [getBestMove, hnil]
    · intro h; exact absurd hnil h
  · have hlen : ¬(getAllValidMoves s s.currentPlayer).length = 0 := by
      simpa [List.length_eq_zero] using hnil
    have hperm := hshuffle (getAllValidMoves s s.currentPlayer)
    have hsne : shuffle (getAllValidMoves s s.currentPlayer) ≠ [] := by
      intro h
      rw [h] at hperm
      exact hnil hperm.symm.eq_nil
    obtain ⟨mbest, hbest, hmem⟩ :
        ∃ m, getBestMove rnd shuffle s depth = some m ∧
          m ∈ getAllValidMoves s s.currentPlayer := by
      rcases foldl_best_fst rnd s depth
          (shuffle (getAllValidMoves s s.currentPlayer))
          ((none : Option Move),
           if s.currentPlayer = PieceColor.white then Score.negInf
           else Score.posInf) with h0 | ⟨m, hm, hsome⟩
      · obtain ⟨m0, tl, hcons⟩ := List.exists_cons_of_ne_nil hsne
        refine ⟨m0, ?_, ?_⟩
        · have hh : getBestMove rnd shuffle s depth =
              (shuffle (getAllValidMoves s s.currentPlayer)).head? := by
            simp [getBestMove, hlen, h0]
          rw [hh, hcons]
          rfl
        · exact (hperm.mem_iff).mp (by simp [hcons])
      · exact ⟨m, by simp [getBestMove, hlen, hsome], (hperm.mem_iff).mp hm⟩
    exact ⟨by simp [hbest, hnil], fun _ => ⟨mbest, hbest, hmem⟩⟩

/-- C6 witness: the characterisation instantiated at the kings-only position
with the identity shuffle and depth 1. -/
theorem claim_C6_witness :
    (getBestMove 0 id tinyState 1 = none ↔
      getAllValidMoves tinyState tinyState.currentPlayer = []) ∧
    (getAllValidMoves tinyState tinyState.currentPlayer ≠ [] →
      ∃ m, getBestMove 0 id tinyState 1 = some m ∧
        m ∈ getAllValidMoves tinyState tinyState.currentPlayer) :=
  claim_C6 0 id tinyState 1 (fun l => List.Perm.refl l)
